import Mathlib

/-!
Verification of the guragiru order-management scripts (Google Apps Script /
JavaScript) against their natural-language specification.

The JavaScript sources are shallowly embedded: JS strings are Lean `String`s
(operated on through their `data : List Char` so that everything is executable
and kernel-reducible), JS numbers that the code uses as integers are `Nat`/`Int`,
the script-properties key/value store is an association list, and every external
collaborator (spreadsheet, HTTP gateway, Drive, clock) is passed in as an
explicit value, so each function is a pure function of its inputs plus the
collaborator outcomes.
-/

namespace OrderMgmt

/-! ## JS string primitives

Embeddings of the JavaScript string operations the sources use, written
structurally over `String.data` so they evaluate in the kernel. -/

/-- JS `String.prototype.trim`: strip leading and trailing whitespace. -/
def jsTrim (s : String) : String :=
  String.mk (((s.data.dropWhile Char.isWhitespace).reverse.dropWhile Char.isWhitespace).reverse)

/-- Decimal value of a list of digit characters (the accumulator loop of
number parsing). -/
def jsDigitsVal (l : List Char) : Nat :=
  l.foldl (fun n c => n * 10 + (c.toNat - 48)) 0

/-- JS `Number(s)` restricted to the non-negative integer strings this code
stores: `some` of the decimal value on a non-empty all-digit string, `none`
(NaN) otherwise. (`Number("")` is `0` in JS; the sources only reach this
function through `... || "0"`, so the empty case is irrelevant.) -/
def jsNumber (s : String) : Option Nat :=
  if s.data ≠ [] ∧ s.data.all Char.isDigit then some (jsDigitsVal s.data) else none

/-! ## Script properties store and `createInvoiceId`

From `src/unnamed/part_000`, `createInvoiceId` (the same code appears as
`CreateInvoice._createInvoiceId` in `src/.github/copilot-instructions.md`):

    const props = PropertiesService.getScriptProperties();
    const today = Utilities.formatDate(new Date(), ..., "yyyyMMdd");
    let counterKey = "counter_" + today;
    let counter = Number(props.getProperty(counterKey) || "0");
    counter += 1;
    props.setProperty(counterKey, String(counter));
    const formatted = ("0000" + counter).slice(-4);
    return `INV-${today}-${formatted}`;

The store is an association list; `today` (the formatted current date) is an
input, since the clock is an external collaborator. -/

/-- The script-properties store: string keys to string values. -/
abbrev Store := List (String × String)

/-- `props.getProperty(k)`. -/
def getProperty (props : Store) (k : String) : Option String :=
  List.lookup k props

/-- `props.setProperty(k, v)`: replace the binding for `k`, or add one. -/
def setProperty : Store → String → String → Store
  | [], k, v => [(k, v)]
  | (k0, v0) :: rest, k, v =>
    if k0 = k then (k, v) :: rest else (k0, v0) :: setProperty rest k v

/-- JS `s.slice(-4)` on a string of length ≥ 4: the last four characters. -/
def slice4 (l : List Char) : List Char :=
  l.drop (l.length - 4)

/-- `createInvoiceId`: read the day's counter (0 if absent), increment, write
back, and format as `INV-{today}-{("0000"+counter).slice(-4)}`. Returns the
updated store and the issued identifier. -/
def createInvoiceId (props : Store) (today : String) : Store × String :=
  let counterKey := "counter_" ++ today
  let counter := (jsNumber ((getProperty props counterKey).getD "0")).getD 0 + 1
  let props2 := setProperty props counterKey (Nat.repr counter)
  let formatted := String.mk (slice4 (('0' :: '0' :: '0' :: '0' :: []) ++ (Nat.repr counter).data))
  (props2, "INV-" ++ today ++ "-" ++ formatted)

/-- Test driver: `N` sequential single-threaded calls to `createInvoiceId`
for a fixed date, returning the final store and the list of issued ids. -/
def runCalls (props : Store) (today : String) : Nat → Store × List String
  | 0 => (props, [])
  | n + 1 =>
    let r := createInvoiceId props today
    let rest := runCalls r.1 today n
    (rest.1, r.2 :: rest.2)

/-- The identifier `createInvoiceId` issues when the incremented counter is
`c`. -/
def invoiceIdFor (today : String) (c : Nat) : String :=
  "INV-" ++ today ++ "-" ++
    String.mk (slice4 (('0' :: '0' :: '0' :: '0' :: []) ++ (Nat.repr c).data))

/-- Zero-padding to four digits as the specification words it: prepend `'0'`
up to width 4 (the numeric part widening, never truncated). -/
def zeroPad4 (n : Nat) : String :=
  String.mk (List.replicate (4 - (Nat.repr n).data.length) '0' ++ (Nat.repr n).data)

/-! ### Decimal representation groundwork -/

theorem toDigitsCore_of_lt (f n : Nat) (ds : List Char) (h : n < 10) (hf : 0 < f) :
    Nat.toDigitsCore 10 f n ds = Nat.digitChar n :: ds := by
  match f, hf with
  | f + 1, _ =>
    conv_lhs => rw [Nat.toDigitsCore]
    simp [Nat.div_eq_of_lt h, Nat.mod_eq_of_lt h]

theorem toDigitsCore_step (f n : Nat) (ds : List Char) (h : 10 ≤ n) :
    Nat.toDigitsCore 10 (f + 1) n ds =
      Nat.toDigitsCore 10 f (n / 10) (Nat.digitChar (n % 10) :: ds) := by
  have hne : ¬ n / 10 = 0 := by omega
  conv_lhs => rw [Nat.toDigitsCore]
  simp [hne]

theorem repr_data_one (n : Nat) (h : n < 10) :
    (Nat.repr n).data = [Nat.digitChar n] := by
  show (Nat.toDigits 10 n).asString.data = _
  rw [Nat.toDigits, toDigitsCore_of_lt _ _ _ h (by omega)]
  rfl

theorem repr_data_two (n : Nat) (h1 : 10 ≤ n) (h2 : n < 100) :
    (Nat.repr n).data = [Nat.digitChar (n / 10), Nat.digitChar (n % 10)] := by
  show (Nat.toDigits 10 n).asString.data = _
  rw [Nat.toDigits]
  cases n with
  | zero => omega
  | succ m =>
    rw [toDigitsCore_step _ _ _ h1,
      toDigitsCore_of_lt _ _ _ (by omega) (by omega)]
    rfl

theorem repr_data_three (n : Nat) (h1 : 100 ≤ n) (h2 : n < 1000) :
    (Nat.repr n).data =
      [Nat.digitChar (n / 100), Nat.digitChar (n / 10 % 10), Nat.digitChar (n % 10)] := by
  show (Nat.toDigits 10 n).asString.data = _
  rw [Nat.toDigits]
  match n, h1 with
  | m + 2, _ =>
    rw [toDigitsCore_step _ _ _ (by omega), toDigitsCore_step _ _ _ (by omega),
      toDigitsCore_of_lt _ _ _ (by omega) (by omega)]
    have : (m + 2) / 10 / 10 = (m + 2) / 100 := by omega
    rw [this]
    rfl

theorem repr_data_four (n : Nat) (h1 : 1000 ≤ n) (h2 : n < 10000) :
    (Nat.repr n).data =
      [Nat.digitChar (n / 1000), Nat.digitChar (n / 100 % 10),
       Nat.digitChar (n / 10 % 10), Nat.digitChar (n % 10)] := by
  show (Nat.toDigits 10 n).asString.data = _
  rw [Nat.toDigits]
  match n, h1 with
  | m + 3, _ =>
    rw [toDigitsCore_step _ _ _ (by omega), toDigitsCore_step _ _ _ (by omega),
      toDigitsCore_step _ _ _ (by omega),
      toDigitsCore_of_lt _ _ _ (by omega) (by omega)]
    have e1 : (m + 3) / 10 / 10 = (m + 3) / 100 := by omega
    have e2 : (m + 3) / 100 / 10 = (m + 3) / 1000 := by omega
    rw [e1, e2]
    rfl

theorem digitChar_inj : ∀ a, a < 10 → ∀ b, b < 10 →
    Nat.digitChar a = Nat.digitChar b → a = b := by decide

theorem digitChar_toNat : ∀ d, d < 10 → (Nat.digitChar d).toNat = 48 + d := by decide

theorem digitChar_isDigit : ∀ d, d < 10 → (Nat.digitChar d).isDigit = true := by decide

/-- The four characters of `("0000" + counter).slice(-4)` for counters below
10000: the counter's decimal digits, zero-padded on the left. -/
theorem slice4_pad_eq (n : Nat) (h : n < 10000) :
    slice4 (('0' :: '0' :: '0' :: '0' :: []) ++ (Nat.repr n).data) =
      [Nat.digitChar (n / 1000), Nat.digitChar (n / 100 % 10),
       Nat.digitChar (n / 10 % 10), Nat.digitChar (n % 10)] := by
  rcases Nat.lt_or_ge n 10 with h1 | h1
  · rw [repr_data_one n h1]
    have e1 : n / 1000 = 0 := by omega
    have e2 : n / 100 % 10 = 0 := by omega
    have e3 : n / 10 % 10 = 0 := by omega
    have e4 : n % 10 = n := by omega
    rw [e1, e2, e3, e4]
    rfl
  rcases Nat.lt_or_ge n 100 with h2 | h2
  · rw [repr_data_two n h1 h2]
    have e1 : n / 1000 = 0 := by omega
    have e2 : n / 100 % 10 = 0 := by omega
    have e3 : n / 10 % 10 = n / 10 := by omega
    rw [e1, e2, e3]
    rfl
  rcases Nat.lt_or_ge n 1000 with h3 | h3
  · rw [repr_data_three n h2 h3]
    have e1 : n / 1000 = 0 := by omega
    have e2 : n / 100 % 10 = n / 100 := by omega
    rw [e1, e2]
    rfl
  · rw [repr_data_four n h3 h]
    rfl

/-- All characters produced by `Nat.toDigitsCore` in base 10 are digits. -/
theorem toDigitsCore_all_digits :
    ∀ f n (ds : List Char), (∀ c ∈ ds, c.isDigit = true) →
      ∀ c ∈ Nat.toDigitsCore 10 f n ds, c.isDigit = true := by
  intro f
  induction f with
  | zero => intro n ds hds; exact hds
  | succ f ih =>
    intro n ds hds c hc
    rw [Nat.toDigitsCore] at hc
    by_cases h0 : n / 10 = 0
    · simp only [h0, if_pos rfl] at hc
      rcases List.mem_cons.1 hc with rfl | hmem
      · exact digitChar_isDigit _ (by omega)
      · exact hds _ hmem
    · simp only [if_neg h0] at hc
      refine ih (n / 10) _ ?_ c hc
      intro c2 hc2
      rcases List.mem_cons.1 hc2 with rfl | hmem
      · exact digitChar_isDigit _ (by omega)
      · exact hds _ hmem

/-- `Nat.toDigitsCore` never returns the empty list when given positive fuel
or a non-empty accumulator. -/
theorem toDigitsCore_ne_nil :
    ∀ f n (ds : List Char), ds ≠ [] ∨ 0 < f → Nat.toDigitsCore 10 f n ds ≠ [] := by
  intro f
  induction f with
  | zero =>
    intro n ds h
    rcases h with h | h
    · exact h
    · omega
  | succ f ih =>
    intro n ds _
    rw [Nat.toDigitsCore]
    by_cases h0 : n / 10 = 0
    · simp [h0]
    · simp only [if_neg h0]
      exact ih (n / 10) _ (Or.inl (by simp))

/-- Folding the decimal-accumulation step over `Nat.toDigitsCore 10 f n ds`
contributes exactly `n` (scaled into the accumulator). -/
theorem toDigitsCore_foldl :
    ∀ f n (ds : List Char) (a : Nat), n < f →
      ∃ e, 0 < e ∧
        List.foldl (fun n c => n * 10 + (c.toNat - 48)) a (Nat.toDigitsCore 10 f n ds) =
          List.foldl (fun n c => n * 10 + (c.toNat - 48)) (a * 10 ^ e + n) ds := by
  intro f
  induction f with
  | zero => intro n ds a h; omega
  | succ f ih =>
    intro n ds a h
    rcases Nat.lt_or_ge n 10 with h10 | h10
    · refine ⟨1, by omega, ?_⟩
      rw [toDigitsCore_of_lt _ _ _ h10 (by omega)]
      simp only [List.foldl_cons, digitChar_toNat n h10, pow_one]
      congr 1
      omega
    · rw [toDigitsCore_step _ _ _ h10]
      have hlt : n / 10 < f := by omega
      obtain ⟨e, he, heq⟩ := ih (n / 10) (Nat.digitChar (n % 10) :: ds) a hlt
      refine ⟨e + 1, by omega, ?_⟩
      rw [heq]
      simp only [List.foldl_cons, digitChar_toNat (n % 10) (by omega), pow_succ]
      congr 1
      have := Nat.div_add_mod n 10
      have h48 : 48 + n % 10 - 48 = n % 10 := by omega
      rw [h48]
      ring_nf
      omega

/-- Parsing back a stored counter: `Number(String(n)) = n`. -/
theorem jsNumber_repr (n : Nat) : jsNumber (Nat.repr n) = some n := by
  have hdata : (Nat.repr n).data = Nat.toDigits 10 n := rfl
  have hne : Nat.toDigits 10 n ≠ [] :=
    toDigitsCore_ne_nil (n + 1) n [] (Or.inr (by omega))
  have hdig : ∀ c ∈ Nat.toDigits 10 n, c.isDigit = true :=
    toDigitsCore_all_digits (n + 1) n [] (by intro c hc; cases hc)
  obtain ⟨e, _, heq⟩ := toDigitsCore_foldl (n + 1) n [] 0 (by omega)
  unfold jsNumber
  rw [hdata, if_pos ⟨hne, List.all_eq_true.2 hdig⟩]
  congr 1
  unfold jsDigitsVal
  rw [show Nat.toDigits 10 n = Nat.toDigitsCore 10 (n + 1) n [] from rfl, heq]
  simp

/-! ### The store across successive calls -/

/-- The store holding a day counter of `c` (absent when `c = 0`, as before the
first call of the day). -/
def ctrStore (today : String) (c : Nat) : Store :=
  if c = 0 then [] else [("counter_" ++ today, Nat.repr c)]

theorem getProperty_ctrStore (today : String) (c : Nat) :
    getProperty (ctrStore today c) ("counter_" ++ today) =
      if c = 0 then none else some (Nat.repr c) := by
  by_cases h : c = 0 <;> simp [ctrStore, getProperty, h, List.lookup]

theorem setProperty_ctrStore (today : String) (c c2 : Nat) :
    setProperty (ctrStore today c) ("counter_" ++ today) (Nat.repr c2) =
      [("counter_" ++ today, Nat.repr c2)] := by
  by_cases h : c = 0 <;> simp [ctrStore, setProperty, h]

/-- Reading the counter back from the store yields `c`. -/
theorem counter_read (today : String) (c : Nat) :
    (jsNumber ((getProperty (ctrStore today c) ("counter_" ++ today)).getD "0")).getD 0 = c := by
  rw [getProperty_ctrStore]
  by_cases h : c = 0
  · subst h
    decide
  · simp only [if_neg h, Option.getD_some, jsNumber_repr]

/-- One call of `createInvoiceId` on a store whose day counter is `c`:
it stores `c + 1` and issues the identifier for `c + 1`. -/
theorem createInvoiceId_ctrStore (today : String) (c : Nat) :
    createInvoiceId (ctrStore today c) today =
      (ctrStore today (c + 1), invoiceIdFor today (c + 1)) := by
  simp only [createInvoiceId]
  rw [counter_read, setProperty_ctrStore]
  rw [show [("counter_" ++ today, Nat.repr (c + 1))] = ctrStore today (c + 1) from by
    simp [ctrStore]]
  rfl

/-- `N` sequential calls starting from a day counter of `c`: the counter ends
at `c + N` and the issued identifiers are those for counters `c+1 .. c+N`. -/
theorem runCalls_ctrStore (today : String) :
    ∀ (N c : Nat),
      runCalls (ctrStore today c) today N =
        (ctrStore today (c + N),
          (List.range N).map (fun i => invoiceIdFor today (c + i + 1))) := by
  intro N
  induction N with
  | zero => intro c; simp [runCalls]
  | succ N ih =>
    intro c
    simp only [runCalls, createInvoiceId_ctrStore]
    rw [ih (c + 1)]
    rw [List.range_succ_eq_map, List.map_cons, List.map_map]
    rw [show c + 1 + N = c + (N + 1) from by omega]
    refine congrArg _ ?_
    congr 1
    show List.map (fun i => invoiceIdFor today (c + 1 + i + 1)) (List.range N) =
      List.map ((fun i => invoiceIdFor today (c + i + 1)) ∘ Nat.succ) (List.range N)
    refine List.map_congr_left ?_
    intro a _
    show invoiceIdFor today (c + 1 + a + 1) = invoiceIdFor today (c + Nat.succ a + 1)
    congr 1
    omega

theorem runCalls_outputs (today : String) (c N : Nat) :
    (runCalls (ctrStore today c) today N).2 =
      (List.range N).map (fun i => invoiceIdFor today (c + i + 1)) := by
  rw [runCalls_ctrStore]

theorem runCalls_store (today : String) (c N : Nat) :
    (runCalls (ctrStore today c) today N).1 = ctrStore today (c + N) := by
  rw [runCalls_ctrStore]

/-- For counters below 10000, the issued identifier is `INV-{today}-` followed
by the counter zero-padded (widening-style) to four digits. -/
theorem invoiceIdFor_eq_zeroPad (today : String) (n : Nat) (h : n < 10000) :
    invoiceIdFor today n = "INV-" ++ today ++ "-" ++ zeroPad4 n := by
  unfold invoiceIdFor
  congr 1
  rw [slice4_pad_eq n h]
  unfold zeroPad4
  rcases Nat.lt_or_ge n 10 with h1 | h1
  · rw [repr_data_one n h1]
    have e1 : n / 1000 = 0 := by omega
    have e2 : n / 100 % 10 = 0 := by omega
    have e3 : n / 10 % 10 = 0 := by omega
    have e4 : n % 10 = n := by omega
    rw [e1, e2, e3, e4]
    rfl
  rcases Nat.lt_or_ge n 100 with h2 | h2
  · rw [repr_data_two n h1 h2]
    have e1 : n / 1000 = 0 := by omega
    have e2 : n / 100 % 10 = 0 := by omega
    have e3 : n / 10 % 10 = n / 10 := by omega
    rw [e1, e2, e3]
    rfl
  rcases Nat.lt_or_ge n 1000 with h3 | h3
  · rw [repr_data_three n h2 h3]
    have e1 : n / 1000 = 0 := by omega
    have e2 : n / 100 % 10 = n / 100 := by omega
    rw [e1, e2]
    rfl
  · rw [repr_data_four n h3 h]
    rfl

/-- Identifiers are injective in the counter below 10000. -/
theorem invoiceIdFor_inj (today : String) (m n : Nat) (hm : m < 10000) (hn : n < 10000)
    (h : invoiceIdFor today m = invoiceIdFor today n) : m = n := by
  unfold invoiceIdFor at h
  have hd := congrArg String.data h
  simp only [String.data_append] at hd
  have hXY : slice4 (('0' :: '0' :: '0' :: '0' :: []) ++ (Nat.repr m).data) =
      slice4 (('0' :: '0' :: '0' :: '0' :: []) ++ (Nat.repr n).data) :=
    List.append_cancel_left hd
  rw [slice4_pad_eq m hm, slice4_pad_eq n hn] at hXY
  simp only [List.cons.injEq, and_true] at hXY
  obtain ⟨e1, e2, e3, e4⟩ := hXY
  have d1 := digitChar_inj _ (by omega) _ (by omega) e1
  have d2 := digitChar_inj _ (by omega) _ (by omega) e2
  have d3 := digitChar_inj _ (by omega) _ (by omega) e3
  have d4 := digitChar_inj _ (by omega) _ (by omega) e4
  omega

/-- C6. Sequential invoice numbering: for a fixed date, starting from an
absent counter key, `N ≤ 9999` sequential single-threaded calls to
`createInvoiceId` return the identifiers `INV-{date}-0001` through
`INV-{date}-{N zero-padded to 4 digits}` (the `k`-th call returns the
identifier for counter `k`), and after `k` calls the stored counter value is
exactly `k` — strictly increasing `1..N` with zero gaps. -/
theorem createInvoiceId_sequential_numbering (today : String) (N : Nat) (hN : N ≤ 9999) :
    (∀ k, k < N →
      (runCalls [] today N).2.get? k = some ("INV-" ++ today ++ "-" ++ zeroPad4 (k + 1))) ∧
    (∀ k, 1 ≤ k → k ≤ N →
      getProperty (runCalls [] today k).1 ("counter_" ++ today) = some (Nat.repr k)) := by
  constructor
  · intro k hk
    rw [show ([] : Store) = ctrStore today 0 from rfl, runCalls_outputs]
    rw [List.get?_map, List.get?_range hk]
    simp only [Option.map_some']
    rw [show 0 + k + 1 = k + 1 from by omega]
    rw [invoiceIdFor_eq_zeroPad today (k + 1) (by omega)]
  · intro k h1 h2
    rw [show ([] : Store) = ctrStore today 0 from rfl, runCalls_store]
    rw [show 0 + k = k from by omega, getProperty_ctrStore, if_neg (by omega)]

/-- Witness for C6 at `N = 3`: the third call issues `INV-20250916-0003` and
stores counter value `3`. -/
theorem createInvoiceId_sequential_numbering_witness :
    (runCalls [] "20250916" 3).2.get? 2 = some "INV-20250916-0003" ∧
    getProperty (runCalls [] "20250916" 3).1 ("counter_" ++ "20250916") = some (Nat.repr 3) := by
  have h := createInvoiceId_sequential_numbering "20250916" 3 (by decide)
  refine ⟨?_, h.2 3 (by decide) (by decide)⟩
  rw [h.1 2 (by decide)]
  decide

/-- C1 counterexample: with the date fixed, the identifiers issued at counter
values 1 and 10001 (the first and the 10001st of 10001 successive calls)
coincide: `("0000" + counter).slice(-4)` keeps only the last four characters,
so the numeric part is truncated, not widened. -/
theorem createInvoiceId_collision_at_10001 :
    (runCalls [] "20250916" 10001).2.get? 0 = some "INV-20250916-0001" ∧
    (runCalls [] "20250916" 10001).2.get? 10000 = some "INV-20250916-0001" := by
  constructor
  · rw [show ([] : Store) = ctrStore "20250916" 0 from rfl, runCalls_outputs]
    rw [List.get?_map, List.get?_range (by omega)]
    simp only [Option.map_some']
    rw [show invoiceIdFor "20250916" (0 + 0 + 1) = "INV-20250916-0001" from by decide]
  · rw [show ([] : Store) = ctrStore "20250916" 0 from rfl, runCalls_outputs]
    rw [List.get?_map, List.get?_range (by omega)]
    simp only [Option.map_some']
    rw [show invoiceIdFor "20250916" (0 + 10000 + 1) = "INV-20250916-0001" from by decide]

/-- C1 (amended). Among successive calls for a fixed date, identifiers issued
at two distinct counter values are distinct as long as both counters are at
most 9999; beyond that the 4-digit field is truncated to the last four
characters (see the counterexample), so uniqueness holds only below 10000. -/
theorem createInvoiceId_unique_below_10000 (today : String) (N m n : Nat)
    (hm1 : 1 ≤ m) (hm : m ≤ 9999) (hn1 : 1 ≤ n) (hn : n ≤ 9999) (hmn : m ≠ n)
    (hmN : m ≤ N) (hnN : n ≤ N) :
    ∃ sm sn, (runCalls [] today N).2.get? (m - 1) = some sm ∧
      (runCalls [] today N).2.get? (n - 1) = some sn ∧ sm ≠ sn := by
  refine ⟨invoiceIdFor today m, invoiceIdFor today n, ?_, ?_, ?_⟩
  · rw [show ([] : Store) = ctrStore today 0 from rfl, runCalls_outputs]
    rw [List.get?_map, List.get?_range (by omega)]
    simp only [Option.map_some']
    congr 2
    omega
  · rw [show ([] : Store) = ctrStore today 0 from rfl, runCalls_outputs]
    rw [List.get?_map, List.get?_range (by omega)]
    simp only [Option.map_some']
    congr 2
    omega
  · intro heq
    exact hmn (invoiceIdFor_inj today m n (by omega) (by omega) heq)

/-- Witness for the amended C1: counters 1 and 2 of three successive calls
yield distinct identifiers. -/
theorem createInvoiceId_unique_below_10000_witness :
    ∃ sm sn, (runCalls [] "20250916" 3).2.get? (1 - 1) = some sm ∧
      (runCalls [] "20250916" 3).2.get? (2 - 1) = some sn ∧ sm ≠ sn :=
  createInvoiceId_unique_below_10000 "20250916" 3 1 2 (by decide) (by decide) (by decide)
    (by decide) (by decide) (by decide) (by decide)

/-! ## Phone normalization

From `src/unnamed/part_000` (`normalizePhoneNumber`, duplicated as
`CreateInvoice._normalizePhoneNumber` in the copilot instructions):

    if (!phoneNumber) return "";
    let cleanNumber = phoneNumber.replace(/[^\d+]/g, "");
    cleanNumber = cleanNumber.replace(/^\+/, "");
    if (cleanNumber.startsWith("0")) cleanNumber = "62" + cleanNumber.substring(1);
    if (!cleanNumber.startsWith("62")) cleanNumber = "62" + cleanNumber;
    return cleanNumber;

Each reassignment of `cleanNumber` is one helper below. Note the regex
`[^\d+]` keeps EVERY `+`, not only a leading one, while `replace(/^\+/, "")`
removes only a single leading `+`. -/

/-- `cleanNumber.replace(/^\+/, "")`: drop one leading `+`. -/
def phoneDropLeadPlus (l : List Char) : List Char :=
  if l.head? = some '+' then l.tail else l

/-- `if (cleanNumber.startsWith("0")) cleanNumber = "62" + cleanNumber.substring(1)`. -/
def phoneZeroTo62 (l : List Char) : List Char :=
  if l.head? = some '0' then '6' :: '2' :: l.tail else l

/-- `if (!cleanNumber.startsWith("62")) cleanNumber = "62" + cleanNumber`. -/
def phonePrefix62 (l : List Char) : List Char :=
  if ['6', '2'].isPrefixOf l then l else '6' :: '2' :: l

/-- `normalizePhoneNumber` from the source. -/
def normalizePhoneNumber (phoneNumber : String) : String :=
  if phoneNumber = "" then ""
  else
    String.mk (phonePrefix62 (phoneZeroTo62 (phoneDropLeadPlus
      (phoneNumber.data.filter (fun c => c.isDigit || c == '+')))))

/-- Modelled from the claim's wording, for comparison: every character except
digits and a leading `+` removed and the `+` dropped (net effect: only digits
kept), a leading `0` replaced by `62`, and `62` prepended when the result does
not already start with `62`. -/
def normalizePhoneSpec (s : String) : String :=
  String.mk (phonePrefix62 (phoneZeroTo62 (s.data.filter Char.isDigit)))

/-- C2 counterexample: on `"62+8112411915"` the code keeps the interior `+`
(the regex removes only characters that are neither digits nor `+`), so the
result differs from the claim's transformation and contains a non-digit. -/
theorem normalizePhoneNumber_counterexample :
    normalizePhoneNumber "62+8112411915" ≠ normalizePhoneSpec "62+8112411915" ∧
    normalizePhoneNumber "62+8112411915" = "62+8112411915" ∧
    (normalizePhoneNumber "62+8112411915").data.all Char.isDigit = false := by
  refine ⟨by decide, by decide, by decide⟩

theorem phoneDropLeadPlus_of_digits (l : List Char) (h : ∀ x ∈ l, x.isDigit = true) :
    phoneDropLeadPlus l = l := by
  unfold phoneDropLeadPlus
  match l with
  | [] => rfl
  | y :: ys =>
    have hy := h y (List.mem_cons_self y ys)
    rw [if_neg]
    simp only [List.head?_cons, Option.some.injEq]
    intro hplus
    rw [hplus] at hy
    exact absurd hy (by decide)

theorem all_digits_phone_chain (l : List Char) (h : ∀ x ∈ l, x.isDigit = true) :
    ∀ x ∈ phonePrefix62 (phoneZeroTo62 l), x.isDigit = true := by
  have h2 : ∀ x ∈ phoneZeroTo62 l, x.isDigit = true := by
    intro x hx
    unfold phoneZeroTo62 at hx
    split at hx
    · rcases List.mem_cons.1 hx with rfl | hx2
      · decide
      rcases List.mem_cons.1 hx2 with rfl | hx3
      · decide
      · exact h x (List.mem_of_mem_tail hx3)
    · exact h x hx
  intro x hx
  unfold phonePrefix62 at hx
  split at hx
  · exact h2 x hx
  · rcases List.mem_cons.1 hx with rfl | hx2
    · decide
    rcases List.mem_cons.1 hx2 with rfl | hx3
    · decide
    · exact h2 x hx3

/-- C2 (amended). For every non-empty input in which `+` occurs at most as
the leading character, `normalizePhoneNumber` computes exactly the claimed
transformation (keep the digits, turn a leading `0` into `62`, prepend `62`
when not already present) and its result consists of digits only; the three
quoted examples hold. The restriction is forced: an interior `+` survives
(see the counterexample), and the empty string short-circuits to `""`. -/
theorem normalizePhoneNumber_amended (s : String) (hne : s ≠ "")
    (hplus : ∀ c ∈ s.data.tail, c ≠ '+') :
    normalizePhoneNumber s = normalizePhoneSpec s ∧
    (normalizePhoneNumber s).data.all Char.isDigit = true ∧
    normalizePhoneNumber "08112411915" = "628112411915" ∧
    normalizePhoneNumber "+628112411915" = "628112411915" ∧
    normalizePhoneNumber "628112411915" = "628112411915" := by
  have hdata : s.data ≠ [] := by
    intro h
    apply hne
    cases s with
    | mk d =>
      cases h
      rfl
  obtain ⟨c, cs, hl⟩ := List.exists_cons_of_ne_nil hdata
  have htail : s.data.tail = cs := by rw [hl]; rfl
  have hfilter : cs.filter (fun c => c.isDigit || c == '+') = cs.filter Char.isDigit := by
    refine List.filter_congr ?_
    intro x hx
    have hx2 : x ≠ '+' := hplus x (htail ▸ hx)
    have hx3 : (x == '+') = false := by simp [hx2]
    simp [hx3]
  have hdigits : ∀ x ∈ cs.filter Char.isDigit, x.isDigit = true := by
    intro x hx
    exact List.of_mem_filter hx
  have hclean : phoneDropLeadPlus (s.data.filter (fun c => c.isDigit || c == '+')) =
      s.data.filter Char.isDigit := by
    rw [hl]
    by_cases hc : c = '+'
    · subst hc
      rw [List.filter_cons_of_pos (by decide), List.filter_cons_of_neg (by decide), hfilter]
      unfold phoneDropLeadPlus
      rw [if_pos (show ('+' :: List.filter Char.isDigit cs).head? = some '+' from rfl)]
      rfl
    · have hx3 : (c == '+') = false := by simp [hc]
      by_cases hd : c.isDigit = true
      · rw [List.filter_cons_of_pos (by simp [hx3, hd]), List.filter_cons_of_pos hd, hfilter]
        unfold phoneDropLeadPlus
        rw [if_neg (show ¬ ((c :: List.filter Char.isDigit cs).head? = some '+') from by
          simp only [List.head?_cons, Option.some.injEq]
          exact hc)]
      · rw [Bool.not_eq_true] at hd
        rw [List.filter_cons_of_neg (by simp [hx3, hd]), List.filter_cons_of_neg (by simp [hd]),
          hfilter]
        exact phoneDropLeadPlus_of_digits _ hdigits
  have hmain : normalizePhoneNumber s = normalizePhoneSpec s := by
    unfold normalizePhoneNumber normalizePhoneSpec
    rw [if_neg hne, hclean]
  refine ⟨hmain, ?_, by decide, by decide, by decide⟩
  rw [hmain]
  unfold normalizePhoneSpec
  simp only [List.all_eq_true]
  intro x hx
  exact all_digits_phone_chain _ (fun y hy => List.of_mem_filter hy) x hx

/-- Witness for the amended C2 at the concrete input `"08112411915"`. -/
theorem normalizePhoneNumber_amended_witness :
    normalizePhoneNumber "08112411915" = normalizePhoneSpec "08112411915" ∧
    (normalizePhoneNumber "08112411915").data.all Char.isDigit = true ∧
    normalizePhoneNumber "08112411915" = "628112411915" ∧
    normalizePhoneNumber "+628112411915" = "628112411915" ∧
    normalizePhoneNumber "628112411915" = "628112411915" :=
  normalizePhoneNumber_amended "08112411915" (by decide) (by decide)

/-! ## DOKU payment signature (`src/Code.js`, class `DokuPayment`)

`generateDigest` and `generateSignature` call the Apps Script `Utilities`
crypto primitives (`computeDigest` with SHA-256 over the UTF-8 bytes of the
JSON-serialized body, `computeHmacSha256Signature`, `base64Encode`). Those
primitives and `JSON.stringify` are external collaborators, so they are
parameters of the embedding; the functions below contribute exactly the
composition and string assembly that the source performs. -/

/-- `this.endpoint` of `DokuPayment`. -/
def dokuEndpoint : String := "/checkout/v1/payment"

/-- `generateDigest(body)`: base64 of the SHA-256 hash of the serialized
request body. -/
def generateDigest {β γ : Type} (jsonStringify : β → String) (sha256 : String → γ)
    (base64Encode : γ → String) (body : β) : String :=
  base64Encode (sha256 (jsonStringify body))

/-- `generateSignature(clientId, requestId, timestamp, digest)`: join the five
header components with `"\n"` and HMAC the result with the secret key.
(`computeHmacSha256Signature(value, key)` takes the message first.) -/
def generateSignature {β : Type} (hmacSha256 : String → String → β)
    (base64Encode : β → String)
    (secretKey clientId requestId timestamp digest : String) : String :=
  let components := [
    "Client-Id:" ++ clientId,
    "Request-Id:" ++ requestId,
    "Request-Timestamp:" ++ timestamp,
    "Request-Target:" ++ dokuEndpoint,
    "Digest:" ++ digest]
  let signatureString := String.intercalate "\n" components
  "HMACSHA256=" ++ base64Encode (hmacSha256 signatureString secretKey)

/-- The signature base string exactly as the specification lists it: the five
labelled lines joined by single newlines, in order. -/
def sigBaseString (clientId requestId timestamp digest : String) : String :=
  "Client-Id:" ++ clientId ++ "\n" ++ "Request-Id:" ++ requestId ++ "\n" ++
    "Request-Timestamp:" ++ timestamp ++ "\n" ++ "Request-Target:" ++ dokuEndpoint ++
    "\n" ++ "Digest:" ++ digest

theorem stringDataExt : ∀ {s t : String}, s.data = t.data → s = t
  | ⟨_⟩, ⟨_⟩, h => congrArg String.mk h

theorem intercalate_five (a b c d e : String) :
    String.intercalate "\n" [a, b, c, d, e] = a ++ "\n" ++ b ++ "\n" ++ c ++ "\n" ++ d ++ "\n" ++ e :=
  rfl

/-- `generateSignature` computed in terms of the flat signature base string. -/
theorem generateSignature_eq {β : Type} (hmacSha256 : String → String → β)
    (base64Encode : β → String) (k c r t d : String) :
    generateSignature hmacSha256 base64Encode k c r t d =
      "HMACSHA256=" ++ base64Encode (hmacSha256 (sigBaseString c r t d) k) := by
  simp only [generateSignature]
  rw [intercalate_five]
  have hbase : "Client-Id:" ++ c ++ "\n" ++ ("Request-Id:" ++ r) ++ "\n" ++
      ("Request-Timestamp:" ++ t) ++ "\n" ++ ("Request-Target:" ++ dokuEndpoint) ++ "\n" ++
      ("Digest:" ++ d) = sigBaseString c r t d := by
    apply stringDataExt
    simp only [sigBaseString, String.data_append, List.append_assoc]
  rw [hbase]

/-- C3. Payment signature construction: the digest is
`base64(SHA-256(UTF8(JSON(body))))`, and the signature is `"HMACSHA256=" ++
base64(HMAC-SHA256(secretKey, base))` where the base is the five lines
`Client-Id:`, `Request-Id:`, `Request-Timestamp:`,
`Request-Target:/checkout/v1/payment`, `Digest:` joined by single newlines in
exactly that order. -/
theorem signature_construction {β γ δ : Type} (jsonStringify : β → String)
    (sha256 : String → γ) (base64γ : γ → String)
    (hmacSha256 : String → String → δ) (base64δ : δ → String)
    (body : β) (k c r t d : String) :
    generateDigest jsonStringify sha256 base64γ body =
      base64γ (sha256 (jsonStringify body)) ∧
    generateSignature hmacSha256 base64δ k c r t d =
      "HMACSHA256=" ++ base64δ (hmacSha256
        ("Client-Id:" ++ c ++ "\n" ++ "Request-Id:" ++ r ++ "\n" ++
          "Request-Timestamp:" ++ t ++ "\n" ++ "Request-Target:" ++ "/checkout/v1/payment" ++
          "\n" ++ "Digest:" ++ d) k) :=
  ⟨rfl, generateSignature_eq hmacSha256 base64δ k c r t d⟩

/-! ### Per-component injectivity of the signature base -/

theorem strCancelLeft {s a b : String} (h : s ++ a = s ++ b) : a = b := by
  have hd := congrArg String.data h
  simp only [String.data_append] at hd
  exact stringDataExt (List.append_cancel_left hd)

theorem sigBase_inj_client {c c2 r t d : String}
    (h : sigBaseString c r t d = sigBaseString c2 r t d) : c = c2 := by
  have hd := congrArg String.data h
  simp only [sigBaseString, String.data_append, List.append_assoc] at hd
  have h1 := List.append_cancel_left hd
  exact stringDataExt (List.append_cancel_right h1)

theorem sigBase_inj_request {c r r2 t d : String}
    (h : sigBaseString c r t d = sigBaseString c r2 t d) : r = r2 := by
  have hd := congrArg String.data h
  simp only [sigBaseString, String.data_append, List.append_assoc] at hd
  have h1 := List.append_cancel_left hd
  have h2 := List.append_cancel_left h1
  have h3 := List.append_cancel_left h2
  have h4 := List.append_cancel_left h3
  exact stringDataExt (List.append_cancel_right h4)

theorem sigBase_inj_timestamp {c r t t2 d : String}
    (h : sigBaseString c r t d = sigBaseString c r t2 d) : t = t2 := by
  have hd := congrArg String.data h
  simp only [sigBaseString, String.data_append, List.append_assoc] at hd
  have h1 := List.append_cancel_left hd
  have h2 := List.append_cancel_left h1
  have h3 := List.append_cancel_left h2
  have h4 := List.append_cancel_left h3
  have h5 := List.append_cancel_left h4
  have h6 := List.append_cancel_left h5
  have h7 := List.append_cancel_left h6
  exact stringDataExt (List.append_cancel_right h7)

theorem sigBase_inj_digest {c r t d d2 : String}
    (h : sigBaseString c r t d = sigBaseString c r t d2) : d = d2 := by
  have hd := congrArg String.data h
  simp only [sigBaseString, String.data_append, List.append_assoc] at hd
  have h1 := List.append_cancel_left hd
  have h2 := List.append_cancel_left h1
  have h3 := List.append_cancel_left h2
  have h4 := List.append_cancel_left h3
  have h5 := List.append_cancel_left h4
  have h6 := List.append_cancel_left h5
  have h7 := List.append_cancel_left h6
  have h8 := List.append_cancel_left h7
  have h9 := List.append_cancel_left h8
  have h10 := List.append_cancel_left h9
  have h11 := List.append_cancel_left h10
  have h12 := List.append_cancel_left h11
  exact stringDataExt (List.append_cancel_left h12)

/-- C8. Determinism and input sensitivity of `generateSignature`: identical
inputs give identical signatures, and — provided the base64-encoded MAC
primitive is collision-free, which is the working assumption for
HMAC-SHA256 — two calls differing in exactly one of client id, request id,
timestamp, digest or secret key return different signature strings (the
five-line base string separates each component). -/
theorem generateSignature_deterministic_sensitive {β : Type}
    (hmacSha256 : String → String → β) (base64Encode : β → String)
    (hinj : ∀ m1 k1 m2 k2,
      base64Encode (hmacSha256 m1 k1) = base64Encode (hmacSha256 m2 k2) →
      m1 = m2 ∧ k1 = k2)
    (k c r t d k2 c2 r2 t2 d2 : String) :
    generateSignature hmacSha256 base64Encode k c r t d =
      generateSignature hmacSha256 base64Encode k c r t d ∧
    (c ≠ c2 → generateSignature hmacSha256 base64Encode k c r t d ≠
      generateSignature hmacSha256 base64Encode k c2 r t d) ∧
    (r ≠ r2 → generateSignature hmacSha256 base64Encode k c r t d ≠
      generateSignature hmacSha256 base64Encode k c r2 t d) ∧
    (t ≠ t2 → generateSignature hmacSha256 base64Encode k c r t d ≠
      generateSignature hmacSha256 base64Encode k c r t2 d) ∧
    (d ≠ d2 → generateSignature hmacSha256 base64Encode k c r t d ≠
      generateSignature hmacSha256 base64Encode k c r t d2) ∧
    (k ≠ k2 → generateSignature hmacSha256 base64Encode k c r t d ≠
      generateSignature hmacSha256 base64Encode k2 c r t d) := by
  refine ⟨rfl, ?_, ?_, ?_, ?_, ?_⟩
  · intro hne heq
    rw [generateSignature_eq, generateSignature_eq] at heq
    have hb := (hinj _ _ _ _ (strCancelLeft heq)).1
    exact hne (sigBase_inj_client hb)
  · intro hne heq
    rw [generateSignature_eq, generateSignature_eq] at heq
    have hb := (hinj _ _ _ _ (strCancelLeft heq)).1
    exact hne (sigBase_inj_request hb)
  · intro hne heq
    rw [generateSignature_eq, generateSignature_eq] at heq
    have hb := (hinj _ _ _ _ (strCancelLeft heq)).1
    exact hne (sigBase_inj_timestamp hb)
  · intro hne heq
    rw [generateSignature_eq, generateSignature_eq] at heq
    have hb := (hinj _ _ _ _ (strCancelLeft heq)).1
    exact hne (sigBase_inj_digest hb)
  · intro hne heq
    rw [generateSignature_eq, generateSignature_eq] at heq
    exact hne (hinj _ _ _ _ (strCancelLeft heq)).2

/-! ### A concrete collision-free MAC mock for the witness -/

/-- Mock MAC: pairs the message (length-tagged) with the key. -/
def hmacMock (message key : String) : Nat × List Char :=
  (message.data.length, message.data ++ key.data)

/-- Mock base64: unary length tag, a `#` separator, then the payload. -/
def b64Mock (p : Nat × List Char) : String :=
  String.mk (List.replicate p.1 'a' ++ '#' :: p.2)

theorem replicate_hash_inj : ∀ n1 n2 (r1 r2 : List Char),
    List.replicate n1 'a' ++ '#' :: r1 = List.replicate n2 'a' ++ '#' :: r2 →
    n1 = n2 ∧ r1 = r2 := by
  intro n1
  induction n1 with
  | zero =>
    intro n2 r1 r2 h
    cases n2 with
    | zero =>
      simp only [List.replicate, List.nil_append, List.cons.injEq] at h
      exact ⟨rfl, h.2⟩
    | succ m =>
      simp only [List.replicate, List.nil_append, List.cons_append, List.cons.injEq] at h
      exact absurd h.1 (by decide)
  | succ n ih =>
    intro n2 r1 r2 h
    cases n2 with
    | zero =>
      simp only [List.replicate, List.nil_append, List.cons_append, List.cons.injEq] at h
      exact absurd h.1 (by decide)
    | succ m =>
      simp only [List.replicate, List.cons_append, List.cons.injEq] at h
      obtain ⟨he, hr⟩ := ih m r1 r2 h.2
      exact ⟨by omega, hr⟩

theorem mock_inj (m1 k1 m2 k2 : String)
    (h : b64Mock (hmacMock m1 k1) = b64Mock (hmacMock m2 k2)) : m1 = m2 ∧ k1 = k2 := by
  have hd := congrArg String.data h
  simp only [b64Mock, hmacMock] at hd
  obtain ⟨hlen, hpay⟩ := replicate_hash_inj _ _ _ _ hd
  obtain ⟨hm, hk⟩ := List.append_inj hpay hlen
  exact ⟨stringDataExt hm, stringDataExt hk⟩

/-- Witness for C8 with the concrete collision-free mock primitives and
concrete differing inputs. -/
theorem generateSignature_deterministic_sensitive_witness :
    generateSignature hmacMock b64Mock "k" "c" "r" "t" "d" =
      generateSignature hmacMock b64Mock "k" "c" "r" "t" "d" ∧
    ("c" ≠ "x" → generateSignature hmacMock b64Mock "k" "c" "r" "t" "d" ≠
      generateSignature hmacMock b64Mock "k" "x" "r" "t" "d") ∧
    ("r" ≠ "x" → generateSignature hmacMock b64Mock "k" "c" "r" "t" "d" ≠
      generateSignature hmacMock b64Mock "k" "c" "x" "t" "d") ∧
    ("t" ≠ "x" → generateSignature hmacMock b64Mock "k" "c" "r" "t" "d" ≠
      generateSignature hmacMock b64Mock "k" "c" "r" "x" "d") ∧
    ("d" ≠ "x" → generateSignature hmacMock b64Mock "k" "c" "r" "t" "d" ≠
      generateSignature hmacMock b64Mock "k" "c" "r" "t" "x") ∧
    ("k" ≠ "x" → generateSignature hmacMock b64Mock "k" "c" "r" "t" "d" ≠
      generateSignature hmacMock b64Mock "x" "c" "r" "t" "d") :=
  generateSignature_deterministic_sensitive hmacMock b64Mock
    (fun m1 k1 m2 k2 h => mock_inj m1 k1 m2 k2 h) "k" "c" "r" "t" "d" "x" "x" "x" "x" "x"

/-! ## Order ledger (`src/InputOrder.js`, class `InputOrder`)

A sheet is its list of data rows (spreadsheet rows 2..lastRow; row 1 is the
header, so `lastRow = rows.length + 1`). Each data row has the four columns
the code reads and writes: Name, Item, Quantity, Price. Cell values written
by this code are strings in column A and numbers in C/D, embedded as `String`
and `Int`. -/

structure Row where
  name : String
  item : String
  quantity : Int
  price : Int
deriving DecidableEq

structure Block where
  name : String
  startRow : Nat
  endRow : Nat
deriving DecidableEq

structure OrderItem where
  item : String
  quantity : Int
  price : Int
deriving DecidableEq

structure OrderData where
  sheetName : String
  name : String
  items : List OrderItem
deriving DecidableEq

structure SubmitResult where
  success : Bool
  message : String
deriving DecidableEq

/-- The scanning loop of `getNames`: walk the name-column cells from
`rowNum`, tracking the currently open `(name, startRow)` pair; a non-blank
(trimmed) cell closes the open block at `rowNum - 1` and opens a new one; at
the end the open block is closed at `lastRow`. -/
def getNamesAux (lastRow : Nat) : List String → Nat → Option (String × Nat) → List Block
  | [], _, none => []
  | [], _, some (n, s) => [⟨n, s, lastRow⟩]
  | c :: rest, rowNum, cur =>
    if jsTrim c ≠ "" then
      match cur with
      | none => getNamesAux lastRow rest (rowNum + 1) (some (jsTrim c, rowNum))
      | some (n, s) =>
        ⟨n, s, rowNum - 1⟩ :: getNamesAux lastRow rest (rowNum + 1) (some (jsTrim c, rowNum))
    else getNamesAux lastRow rest (rowNum + 1) cur

/-- `InputOrder.getNames`: reconstruct the blocks of a sheet from its name
column (rows 2..lastRow). -/
def getNames (rows : List Row) : List Block :=
  getNamesAux (rows.length + 1) (rows.map (fun r => r.name)) 2 none

/-- Insert a row at list index `i` (the effect of `insertRowAfter` plus the
four `setValue` calls on the fresh row). -/
def insertAt (rows : List Row) (i : Nat) (r : Row) : List Row :=
  rows.take i ++ r :: rows.drop i

/-- The loop of `_insertRowsForExistingName`: item `i` is inserted after
spreadsheet row `endRow + i`, i.e. it becomes row `endRow + i + 1` (list
index `endRow + i - 1`), with a blank name cell. -/
def insertLoop (endRow : Nat) : List Row → Nat → List OrderItem → List Row
  | rows, _, [] => rows
  | rows, i, it :: its =>
    insertLoop endRow (insertAt rows (endRow + i - 1) ⟨"", it.item, it.quantity, it.price⟩)
      (i + 1) its

/-- `InputOrder._insertRowsForExistingName`. -/
def insertRowsForExistingName (rows : List Row) (endRow : Nat) (items : List OrderItem) :
    List Row :=
  insertLoop endRow rows 0 items

/-- The loop of `_appendRowsForNewName`: row `i` carries the customer name
only when `i = 0`. -/
def appendRowsLoop (name : String) : Nat → List OrderItem → List Row
  | _, [] => []
  | i, it :: its =>
    ⟨if i = 0 then name else "", it.item, it.quantity, it.price⟩ :: appendRowsLoop name (i + 1) its

/-- `InputOrder._appendRowsForNewName`: write the items on fresh rows after
the current last row. -/
def appendRowsForNewName (rows : List Row) (data : OrderData) : List Row :=
  rows ++ appendRowsLoop data.name 0 data.items

/-- The success message `${itemCount} ${itemText} berhasil ditambahkan!`. -/
def successMessage (itemCount : Nat) : String :=
  Nat.repr itemCount ++ " " ++ (if itemCount = 1 then "item" else "items") ++
    " berhasil ditambahkan!"

/-- `InputOrder.submitOrder`. The target sheet is `none` when
`getSheetByName` would return `null`; the try/catch converts the two `throw`
sites into `{success: false, message}` results. Returns the (possibly
updated) sheet and the result object. -/
def submitOrder (sheet : Option (List Row)) (data : OrderData) :
    Option (List Row) × SubmitResult :=
  match sheet with
  | none => (none, ⟨false, "Error: Sheet not found: " ++ data.sheetName⟩)
  | some rows =>
    if data.items.isEmpty then
      (some rows, ⟨false, "Error: No items to submit"⟩)
    else
      match (getNames rows).find? (fun nb => nb.name == data.name) with
      | some existingName =>
        (some (insertRowsForExistingName rows existingName.endRow data.items),
         ⟨true, successMessage data.items.length⟩)
      | none =>
        (some (appendRowsForNewName rows data),
         ⟨true, successMessage data.items.length⟩)

/-- A sequence of `submitOrder` calls against the same (existing) sheet. -/
def applySubmits (rows : List Row) : List OrderData → List Row
  | [] => rows
  | d :: ds => applySubmits (((submitOrder (some rows) d).1).getD rows) ds

/-- C10. `submitOrder` is total and atomic on failure: it always returns a
tagged `{success, message}` result (never throws), it fails exactly when the
named sheet does not resolve or the item list is empty, and on failure the
sheet is unchanged — both checks precede the first mutation. -/
theorem submitOrder_total_atomic (sheet : Option (List Row)) (data : OrderData) :
    ((submitOrder sheet data).2.success = false ↔ sheet = none ∨ data.items = []) ∧
    ((submitOrder sheet data).2.success = false → (submitOrder sheet data).1 = sheet) := by
  match sheet with
  | none => exact ⟨by simp [submitOrder], fun _ => rfl⟩
  | some rows =>
    by_cases hempty : data.items.isEmpty
    · have hnil : data.items = [] := List.isEmpty_iff.1 hempty
      refine ⟨by simp [submitOrder, hempty, hnil], fun _ => by simp [submitOrder, hempty]⟩
    · have hnil : ¬ data.items = [] := by
        intro h
        exact hempty (by simp [h])
      constructor
      · simp only [submitOrder, if_neg hempty]
        cases hf : (getNames rows).find? (fun nb => nb.name == data.name) with
        | some existingName => simp [hnil]
        | none => simp [hnil]
      · intro hfail
        exfalso
        simp only [submitOrder, if_neg hempty] at hfail
        revert hfail
        cases hf : (getNames rows).find? (fun nb => nb.name == data.name) with
        | some existingName => simp
        | none => simp

/-- Witness for C10: a missing sheet fails with the sheet untouched, and an
empty item list fails with the sheet untouched. -/
theorem submitOrder_total_atomic_witness :
    (((submitOrder none ⟨"S", "A", [⟨"x", 1, 1⟩]⟩).2.success = false ↔
      (none : Option (List Row)) = none ∨ ([⟨"x", 1, 1⟩] : List OrderItem) = []) ∧
     ((submitOrder none ⟨"S", "A", [⟨"x", 1, 1⟩]⟩).2.success = false →
      (submitOrder none ⟨"S", "A", [⟨"x", 1, 1⟩]⟩).1 = none)) ∧
    (((submitOrder (some []) ⟨"S", "A", []⟩).2.success = false ↔
      (some [] : Option (List Row)) = none ∨ ([] : List OrderItem) = []) ∧
     ((submitOrder (some []) ⟨"S", "A", []⟩).2.success = false →
      (submitOrder (some []) ⟨"S", "A", []⟩).1 = some [])) :=
  ⟨submitOrder_total_atomic none ⟨"S", "A", [⟨"x", 1, 1⟩]⟩,
   submitOrder_total_atomic (some []) ⟨"S", "A", []⟩⟩

/-! ### Ledger lemmas: the sheet built by appending distinct-name orders -/

/-- The rows `_appendRowsForNewName` writes for one order. -/
def blockRows (d : OrderData) : List Row :=
  appendRowsLoop d.name 0 d.items

/-- The ledger produced by appending each order in turn as a new block. -/
def rowsOf (ds : List OrderData) : List Row :=
  (ds.map blockRows).join

def totalRows (ds : List OrderData) : Nat :=
  (ds.map (fun d => d.items.length)).sum

/-- The block list reconstruction should yield, starting at row `r`. -/
def expectedBlocksFrom : List OrderData → Nat → List Block
  | [], _ => []
  | d :: ds, r =>
    ⟨d.name, r, r + d.items.length - 1⟩ :: expectedBlocksFrom ds (r + d.items.length)

/-- `coversB lo stop bs`: the blocks tile the row range `[lo, stop)` exactly:
the first starts at `lo`, each is non-empty, each next starts right after the
previous ends, and the last ends at `stop - 1`. -/
def coversB : Nat → Nat → List Block → Bool
  | lo, stop, [] => lo == stop
  | lo, stop, b :: bs =>
    b.startRow == lo && decide (lo ≤ b.endRow) && coversB (b.endRow + 1) stop bs

/-- Total number of items ever submitted for customer name `n`. -/
def totalItemsFor (ds : List OrderData) (n : String) : Nat :=
  ((ds.filter (fun d => d.name == n)).map (fun d => d.items.length)).sum

theorem appendRowsLoop_length (name : String) :
    ∀ (its : List OrderItem) (i : Nat), (appendRowsLoop name i its).length = its.length := by
  intro its
  induction its with
  | nil => intro i; rfl
  | cons it its ih =>
    intro i
    simp [appendRowsLoop, ih]

theorem appendRowsLoop_names_pos (name : String) :
    ∀ (its : List OrderItem) (i : Nat), i ≠ 0 →
      (appendRowsLoop name i its).map (fun r => r.name) = List.replicate its.length "" := by
  intro its
  induction its with
  | nil => intro i _; rfl
  | cons it its ih =>
    intro i hi
    simp only [appendRowsLoop, List.map_cons, if_neg hi, List.length_cons, List.replicate_succ]
    rw [ih (i + 1) (by omega)]

theorem blockRows_names (d : OrderData) (h : d.items ≠ []) :
    (blockRows d).map (fun r => r.name) = d.name :: List.replicate (d.items.length - 1) "" := by
  match hit : d.items, h with
  | it :: its, _ =>
    simp only [blockRows, hit, appendRowsLoop, if_pos rfl, List.map_cons]
    rw [appendRowsLoop_names_pos d.name its 1 (by omega)]
    simp

theorem blockRows_length (d : OrderData) : (blockRows d).length = d.items.length :=
  appendRowsLoop_length d.name d.items 0

theorem rowsOf_cons (d : OrderData) (ds : List OrderData) :
    rowsOf (d :: ds) = blockRows d ++ rowsOf ds := by
  simp [rowsOf]

theorem rowsOf_append (ds es : List OrderData) :
    rowsOf (ds ++ es) = rowsOf ds ++ rowsOf es := by
  simp [rowsOf]

theorem rowsOf_length (ds : List OrderData) : (rowsOf ds).length = totalRows ds := by
  induction ds with
  | nil => rfl
  | cons d ds ih =>
    rw [rowsOf_cons, List.length_append, blockRows_length, ih]
    simp [totalRows]

theorem gn_skip_blank : ∀ (k : Nat) (cs : List String) (r : Nat)
    (cur : Option (String × Nat)) (L : Nat),
    getNamesAux L (List.replicate k "" ++ cs) r cur = getNamesAux L cs (r + k) cur := by
  intro k
  induction k with
  | zero => intro cs r cur L; simp
  | succ k ih =>
    intro cs r cur L
    rw [List.replicate_succ, List.cons_append]
    have hblank : ¬ (jsTrim "" ≠ "") := by decide
    simp only [getNamesAux, if_neg hblank]
    rw [ih cs (r + 1) cur L]
    congr 1
    omega

theorem gn_start (L : Nat) (c : String) (cs : List String) (r : Nat) (hc : jsTrim c ≠ "") :
    getNamesAux L (c :: cs) r none = getNamesAux L cs (r + 1) (some (jsTrim c, r)) := by
  simp [getNamesAux, hc]

theorem gn_emit (L : Nat) (c : String) (cs : List String) (r : Nat) (n : String) (s : Nat)
    (hc : jsTrim c ≠ "") :
    getNamesAux L (c :: cs) r (some (n, s)) =
      ⟨n, s, r - 1⟩ :: getNamesAux L (c :: cs) r none := by
  simp [getNamesAux, hc]

theorem getNamesAux_rowsOf : ∀ (ds : List OrderData) (r L : Nat), ds ≠ [] →
    (∀ d ∈ ds, d.items ≠ [] ∧ jsTrim d.name = d.name ∧ d.name ≠ "") →
    L + 1 = r + totalRows ds →
    getNamesAux L ((rowsOf ds).map (fun x => x.name)) r none = expectedBlocksFrom ds r := by
  intro ds
  induction ds with
  | nil => intro r L h; exact absurd rfl h
  | cons d ds2 ih =>
    intro r L _ hall hL
    obtain ⟨hd1, hd2, hd3⟩ := hall d (List.mem_cons_self d ds2)
    have hlen : 0 < d.items.length := List.length_pos.2 hd1
    rw [rowsOf_cons, List.map_append, blockRows_names d hd1, List.cons_append]
    rw [gn_start L d.name _ r (by rw [hd2]; exact hd3), hd2, gn_skip_blank]
    have harith : r + 1 + (d.items.length - 1) = r + d.items.length := by omega
    rw [harith]
    have htot : totalRows (d :: ds2) = d.items.length + totalRows ds2 := by
      simp [totalRows]
    cases ds2 with
    | nil =>
      show getNamesAux L [] (r + d.items.length) (some (d.name, r)) = _
      simp only [getNamesAux, expectedBlocksFrom]
      have : L = r + d.items.length - 1 := by
        rw [htot] at hL
        simp [totalRows] at hL
        omega
      rw [this]
    | cons d2 ds3 =>
      obtain ⟨h21, h22, h23⟩ := hall d2 (by simp)
      rw [rowsOf_cons, List.map_append, blockRows_names d2 h21, List.cons_append]
      rw [gn_emit L d2.name _ (r + d.items.length) d.name r (by rw [h22]; exact h23)]
      rw [← List.cons_append, ← blockRows_names d2 h21, ← List.map_append, ← rowsOf_cons]
      rw [ih (r + d.items.length) L (by simp)
        (fun e he => hall e (List.mem_cons_of_mem d he))
        (by rw [htot] at hL; omega)]
      rfl

theorem getNames_rowsOf (ds : List OrderData)
    (hall : ∀ d ∈ ds, d.items ≠ [] ∧ jsTrim d.name = d.name ∧ d.name ≠ "") :
    getNames (rowsOf ds) = expectedBlocksFrom ds 2 := by
  cases ds with
  | nil => rfl
  | cons d ds2 =>
    unfold getNames
    rw [rowsOf_length]
    exact getNamesAux_rowsOf (d :: ds2) 2 (totalRows (d :: ds2) + 1) (by simp) hall (by omega)

theorem expectedBlocksFrom_name : ∀ (ds : List OrderData) (r : Nat) (b : Block),
    b ∈ expectedBlocksFrom ds r → ∃ e ∈ ds, b.name = e.name := by
  intro ds
  induction ds with
  | nil => intro r b hb; cases hb
  | cons d ds2 ih =>
    intro r b hb
    rcases List.mem_cons.1 hb with rfl | hb2
    · exact ⟨d, List.mem_cons_self d ds2, rfl⟩
    · obtain ⟨e, he, hbe⟩ := ih (r + d.items.length) b hb2
      exact ⟨e, List.mem_cons_of_mem d he, hbe⟩

theorem appendRowsForNewName_rowsOf (es : List OrderData) (d : OrderData) :
    appendRowsForNewName (rowsOf es) d = rowsOf (es ++ [d]) := by
  rw [appendRowsForNewName, rowsOf_append, rowsOf_cons]
  simp [rowsOf, blockRows]

/-- A `submitOrder` call for a name not yet in the ledger appends a fresh
block at the end and succeeds. -/
theorem submit_appends (es : List OrderData) (d : OrderData)
    (hes : ∀ e ∈ es, e.items ≠ [] ∧ jsTrim e.name = e.name ∧ e.name ≠ "")
    (hd1 : d.items ≠ [])
    (hnotin : ∀ e ∈ es, e.name ≠ d.name) :
    submitOrder (some (rowsOf es)) d =
      (some (rowsOf (es ++ [d])), ⟨true, successMessage d.items.length⟩) := by
  have hempty : ¬ (d.items.isEmpty = true) := by
    simp [hd1]
  simp only [submitOrder, if_neg hempty]
  have hfind : (getNames (rowsOf es)).find? (fun nb => nb.name == d.name) = none := by
    rw [getNames_rowsOf es hes, List.find?_eq_none]
    intro b hb
    obtain ⟨e, he, hbe⟩ := expectedBlocksFrom_name es 2 b hb
    simp [hbe, hnotin e he]
  rw [hfind, appendRowsForNewName_rowsOf]

theorem applySubmits_rowsOf : ∀ (ds es : List OrderData),
    (∀ e ∈ es ++ ds, e.items ≠ [] ∧ jsTrim e.name = e.name ∧ e.name ≠ "") →
    (es ++ ds).Pairwise (fun a b => a.name ≠ b.name) →
    applySubmits (rowsOf es) ds = rowsOf (es ++ ds) := by
  intro ds
  induction ds with
  | nil =>
    intro es _ _
    rw [List.append_nil]
    rfl
  | cons d ds2 ih =>
    intro es hall hpw
    have hes : ∀ e ∈ es, e.items ≠ [] ∧ jsTrim e.name = e.name ∧ e.name ≠ "" :=
      fun e he => hall e (List.mem_append_left _ he)
    have hd := hall d (List.mem_append_right _ (List.mem_cons_self d ds2))
    have hnotin : ∀ e ∈ es, e.name ≠ d.name := by
      intro e he
      exact (List.pairwise_append.1 hpw).2.2 e he d (List.mem_cons_self d ds2)
    show applySubmits (((submitOrder (some (rowsOf es)) d).1).getD (rowsOf es)) ds2 = _
    rw [submit_appends es d hes hd.1 hnotin]
    simp only [Option.getD_some]
    have hshift : (es ++ [d]) ++ ds2 = es ++ d :: ds2 := by simp
    rw [ih (es ++ [d]) (by rw [hshift]; exact hall) (by rw [hshift]; exact hpw), hshift]

theorem coversB_expectedBlocks : ∀ (ds : List OrderData) (r : Nat),
    (∀ d ∈ ds, d.items ≠ []) →
    coversB r (r + totalRows ds) (expectedBlocksFrom ds r) = true := by
  intro ds
  induction ds with
  | nil =>
    intro r _
    simp [coversB, expectedBlocksFrom, totalRows]
  | cons d ds2 ih =>
    intro r hall
    have hlen : 0 < d.items.length := List.length_pos.2 (hall d (List.mem_cons_self d ds2))
    simp only [expectedBlocksFrom, coversB]
    rw [show r + d.items.length - 1 + 1 = r + d.items.length from by omega]
    rw [show r + totalRows (d :: ds2) = (r + d.items.length) + totalRows ds2 from by
      simp [totalRows]
      omega]
    have h1 : r ≤ r + d.items.length - 1 := by omega
    simp [h1, ih (r + d.items.length) (fun e he => hall e (List.mem_cons_of_mem d he))]

theorem totalItemsFor_cons_neg (d : OrderData) (ds : List OrderData) (n : String)
    (h : d.name ≠ n) : totalItemsFor (d :: ds) n = totalItemsFor ds n := by
  have hb : (d.name == n) = false := by simp [h]
  simp [totalItemsFor, List.filter_cons, hb]

theorem totalItemsFor_cons_pos (d : OrderData) (ds : List OrderData) (n : String)
    (h : d.name = n) : totalItemsFor (d :: ds) n = d.items.length + totalItemsFor ds n := by
  have hb : (d.name == n) = true := by simp [h]
  simp [totalItemsFor, List.filter_cons, hb]

theorem totalItemsFor_zero (ds : List OrderData) (n : String)
    (h : ∀ e ∈ ds, e.name ≠ n) : totalItemsFor ds n = 0 := by
  induction ds with
  | nil => rfl
  | cons d ds2 ih =>
    rw [totalItemsFor_cons_neg d ds2 n (h d (List.mem_cons_self d ds2))]
    exact ih (fun e he => h e (List.mem_cons_of_mem d he))

theorem counts_expectedBlocks : ∀ (ds : List OrderData) (r : Nat),
    ds.Pairwise (fun a b => a.name ≠ b.name) →
    (∀ d ∈ ds, d.items ≠ []) →
    ∀ b ∈ expectedBlocksFrom ds r, b.endRow + 1 - b.startRow = totalItemsFor ds b.name := by
  intro ds
  induction ds with
  | nil => intro r _ _ b hb; cases hb
  | cons d ds2 ih =>
    intro r hpw hall b hb
    have hlen : 0 < d.items.length := List.length_pos.2 (hall d (List.mem_cons_self d ds2))
    rcases List.mem_cons.1 hb with rfl | hb2
    · show r + d.items.length - 1 + 1 - r = totalItemsFor (d :: ds2) d.name
      rw [totalItemsFor_cons_pos d ds2 d.name rfl,
        totalItemsFor_zero ds2 d.name
          (fun e he hc => (List.pairwise_cons.1 hpw).1 e he hc.symm)]
      omega
    · rw [ih (r + d.items.length) (List.pairwise_cons.1 hpw).2
        (fun e he => hall e (List.mem_cons_of_mem d he)) b hb2]
      obtain ⟨e, he, hbe⟩ := expectedBlocksFrom_name ds2 _ b hb2
      have hne : d.name ≠ b.name := by
        rw [hbe]
        exact (List.pairwise_cons.1 hpw).1 e he
      exact (totalItemsFor_cons_neg d ds2 b.name hne).symm

/-- C4. Ledger partition invariant: starting from a sheet holding only the
header row, after any sequence of successful `submitOrder` calls with
pairwise-distinct non-empty (trimmed) customer names, `getNames` returns
blocks whose row ranges exactly tile rows `2..lastRow` (first block starts at
row 2, each next block starts at the previous `endRow + 1`, the last ends at
`lastRow = rows + 1`), and each block spans exactly the total number of items
ever submitted for its customer name. -/
theorem submitOrder_ledger_partition (ds : List OrderData)
    (h1 : ∀ d ∈ ds, d.items ≠ [])
    (h2 : ∀ d ∈ ds, jsTrim d.name = d.name ∧ d.name ≠ "")
    (h3 : ds.Pairwise (fun a b => a.name ≠ b.name)) :
    coversB 2 ((applySubmits [] ds).length + 2) (getNames (applySubmits [] ds)) = true ∧
    ∀ b ∈ getNames (applySubmits [] ds),
      b.endRow + 1 - b.startRow = totalItemsFor ds b.name := by
  have hall : ∀ d ∈ ds, d.items ≠ [] ∧ jsTrim d.name = d.name ∧ d.name ≠ "" :=
    fun d hd => ⟨h1 d hd, h2 d hd⟩
  have happ : applySubmits [] ds = rowsOf ds := by
    have h := applySubmits_rowsOf ds [] (by simpa using hall) (by simpa using h3)
    simpa [rowsOf] using h
  rw [happ, getNames_rowsOf ds hall, rowsOf_length]
  refine ⟨?_, counts_expectedBlocks ds 2 h3 h1⟩
  rw [show totalRows ds + 2 = 2 + totalRows ds from by omega]
  exact coversB_expectedBlocks ds 2 h1

/-- Witness for C4: two submissions, "A" with two items then "B" with one. -/
theorem submitOrder_ledger_partition_witness :
    (coversB 2
      ((applySubmits []
        [⟨"S", "A", [⟨"x", 1, 1⟩, ⟨"y", 2, 2⟩]⟩, ⟨"S", "B", [⟨"z", 1, 1⟩]⟩]).length + 2)
      (getNames (applySubmits []
        [⟨"S", "A", [⟨"x", 1, 1⟩, ⟨"y", 2, 2⟩]⟩, ⟨"S", "B", [⟨"z", 1, 1⟩]⟩])) = true) ∧
    ∀ b ∈ getNames (applySubmits []
        [⟨"S", "A", [⟨"x", 1, 1⟩, ⟨"y", 2, 2⟩]⟩, ⟨"S", "B", [⟨"z", 1, 1⟩]⟩]),
      b.endRow + 1 - b.startRow =
        totalItemsFor [⟨"S", "A", [⟨"x", 1, 1⟩, ⟨"y", 2, 2⟩]⟩, ⟨"S", "B", [⟨"z", 1, 1⟩]⟩] b.name :=
  submitOrder_ledger_partition
    [⟨"S", "A", [⟨"x", 1, 1⟩, ⟨"y", 2, 2⟩]⟩, ⟨"S", "B", [⟨"z", 1, 1⟩]⟩]
    (by decide) (by decide) (by decide)

/-! ### First-match lookup (C7) -/

/-- Lower bound carried by the scanner state: the open block's start row, or
the current row when no block is open. -/
def curLow : Option (String × Nat) → Nat → Nat
  | none, r => r
  | some (_, s), _ => s

theorem gn_startRow_ge : ∀ (cells : List String) (r : Nat) (cur : Option (String × Nat)) (L : Nat),
    (∀ n s, cur = some (n, s) → s ≤ r) →
    ∀ b ∈ getNamesAux L cells r cur, curLow cur r ≤ b.startRow := by
  intro cells
  induction cells with
  | nil =>
    intro r cur L hcur b hb
    match cur with
    | none => cases hb
    | some (n, s) =>
      rw [List.mem_singleton.1 hb]
      exact Nat.le_refl s
  | cons c cs ih =>
    intro r cur L hcur b hb
    by_cases hc : jsTrim c ≠ ""
    · match cur with
      | none =>
        rw [gn_start L c cs r hc] at hb
        exact ih (r + 1) (some (jsTrim c, r)) L (by intro n s h; cases h; omega) b hb
      | some (n, s) =>
        rw [gn_emit L c cs r n s hc] at hb
        rcases List.mem_cons.1 hb with rfl | hb2
        · exact Nat.le_refl s
        · rw [gn_start L c cs r hc] at hb2
          have hr := ih (r + 1) (some (jsTrim c, r)) L (by intro n2 s2 h; cases h; omega) b hb2
          have hs := hcur n s rfl
          show s ≤ b.startRow
          have : (r : Nat) ≤ b.startRow := hr
          omega
    · have hc2 : jsTrim c = "" := not_not.mp hc
      have hstep : getNamesAux L (c :: cs) r cur = getNamesAux L cs (r + 1) cur := by
        simp [getNamesAux, hc2]
      rw [hstep] at hb
      have hr := ih (r + 1) cur L (by intro n s h; have := hcur n s h; omega) b hb
      match cur with
      | none =>
        show r ≤ b.startRow
        have : (r + 1 : Nat) ≤ b.startRow := hr
        omega
      | some (n, s) => exact hr

theorem gn_pairwise : ∀ (cells : List String) (r : Nat) (cur : Option (String × Nat)) (L : Nat),
    (∀ n s, cur = some (n, s) → s < r) →
    List.Pairwise (fun a b => a.startRow < b.startRow) (getNamesAux L cells r cur) := by
  intro cells
  induction cells with
  | nil =>
    intro r cur L hcur
    match cur with
    | none => exact List.Pairwise.nil
    | some (n, s) => simp [getNamesAux]
  | cons c cs ih =>
    intro r cur L hcur
    by_cases hc : jsTrim c ≠ ""
    · match cur with
      | none =>
        rw [gn_start L c cs r hc]
        exact ih (r + 1) (some (jsTrim c, r)) L (by intro n s h; cases h; omega)
      | some (n, s) =>
        rw [gn_emit L c cs r n s hc, gn_start L c cs r hc]
        refine List.Pairwise.cons ?_
          (ih (r + 1) (some (jsTrim c, r)) L (by intro n2 s2 h; cases h; omega))
        intro b hb
        have hge := gn_startRow_ge cs (r + 1) (some (jsTrim c, r)) L
          (by intro n2 s2 h; cases h; omega) b hb
        have hs := hcur n s rfl
        show s < b.startRow
        have : (r : Nat) ≤ b.startRow := hge
        omega
    · have hc2 : jsTrim c = "" := not_not.mp hc
      have hstep : getNamesAux L (c :: cs) r cur = getNamesAux L cs (r + 1) cur := by
        simp [getNamesAux, hc2]
      rw [hstep]
      exact ih (r + 1) cur L (fun n s h => by have := hcur n s h; omega)

/-- The start rows of reconstructed blocks are strictly increasing. -/
theorem getNames_pairwise (rows : List Row) :
    List.Pairwise (fun a b => a.startRow < b.startRow) (getNames rows) :=
  gn_pairwise _ 2 none _ (fun n s h => by cases h)

/-- `find?` returns the first match: every other match is related to it by
the pairwise relation. -/
theorem find?_first {α : Type} {R : α → α → Prop} {p : α → Bool} :
    ∀ (l : List α), l.Pairwise R → ∀ b0, l.find? p = some b0 →
      ∀ x ∈ l, p x = true → x = b0 ∨ R b0 x := by
  intro l
  induction l with
  | nil =>
    intro _ b0 h
    simp at h
  | cons a l2 ih =>
    intro hpw b0 hfind x hx hpx
    cases hp : p a with
    | true =>
      rw [List.find?_cons_of_pos _ hp] at hfind
      obtain rfl : a = b0 := by
        injection hfind
      rcases List.mem_cons.1 hx with rfl | hx2
      · exact Or.inl rfl
      · exact Or.inr ((List.pairwise_cons.1 hpw).1 x hx2)
    | false =>
      rw [List.find?_cons_of_neg _ (by simp [hp])] at hfind
      rcases List.mem_cons.1 hx with rfl | hx2
      · rw [hpx] at hp
        cases hp
      · exact ih (List.pairwise_cons.1 hpw).2 b0 hfind x hx2 hpx

/-- C7. First-match lookup: when the same (trimmed) customer name heads two
disjoint blocks (indices `i < j` of the reconstruction), the lookup used by
`submitOrder` returns the block with the smallest start row; the second block
is never returned, and `submitOrder` inserts the new items immediately after
the first block's `endRow`. -/
theorem submitOrder_first_match (rows : List Row) (sheetName n : String)
    (items : List OrderItem) (hitems : items ≠ [])
    (i j : Nat) (b b2 : Block) (hij : i < j)
    (hi : (getNames rows).get? i = some b) (hj : (getNames rows).get? j = some b2)
    (hbn : b.name = n) (hb2n : b2.name = n) :
    ∃ b0, (getNames rows).find? (fun blk => blk.name == n) = some b0 ∧
      b0.name = n ∧
      (∀ blk ∈ getNames rows, blk.name = n → b0.startRow ≤ blk.startRow) ∧
      b0.startRow < b2.startRow ∧
      submitOrder (some rows) ⟨sheetName, n, items⟩ =
        (some (insertRowsForExistingName rows b0.endRow items),
         ⟨true, successMessage items.length⟩) := by
  have hpw := getNames_pairwise rows
  have hmem_b : b ∈ getNames rows := List.get?_mem hi
  have hmem_b2 : b2 ∈ getNames rows := List.get?_mem hj
  obtain ⟨b0, hfind⟩ : ∃ b0, (getNames rows).find? (fun blk => blk.name == n) = some b0 := by
    refine Option.isSome_iff_exists.mp ?_
    rw [List.find?_isSome]
    exact ⟨b, hmem_b, by simp [hbn]⟩
  have hb0n : b0.name = n := by
    have := List.find?_some hfind
    simpa using this
  have hmin : ∀ blk ∈ getNames rows, blk.name = n → b0.startRow ≤ blk.startRow := by
    intro blk hblk hblkn
    rcases find?_first (getNames rows) hpw b0 hfind blk hblk (by simp [hblkn]) with rfl | hlt
    · exact Nat.le_refl _
    · omega
  have hbb2 : b.startRow < b2.startRow := by
    obtain ⟨hi_lt, hgi⟩ := List.get?_eq_some.1 hi
    obtain ⟨hj_lt, hgj⟩ := List.get?_eq_some.1 hj
    have hp := List.pairwise_iff_get.1 hpw ⟨i, hi_lt⟩ ⟨j, hj_lt⟩ hij
    rw [hgi, hgj] at hp
    exact hp
  have hstrict : b0.startRow < b2.startRow := by
    rcases find?_first (getNames rows) hpw b0 hfind b2 hmem_b2 (by simp [hb2n]) with rfl | hlt
    · have h1 := hmin b hmem_b hbn
      omega
    · exact hlt
  refine ⟨b0, hfind, hb0n, hmin, hstrict, ?_⟩
  have hempty : ¬ ((⟨sheetName, n, items⟩ : OrderData).items.isEmpty = true) := by
    simp [hitems]
  simp only [submitOrder, if_neg hempty]
  rw [hfind]

/-- Witness for C7: the name "A" heads blocks at rows 2 and 4 of a concrete
sheet; lookup returns the first and the insert lands after its end row. -/
theorem submitOrder_first_match_witness :
    ∃ b0, (getNames [⟨"A", "x", 1, 1⟩, ⟨"B", "y", 1, 1⟩, ⟨"A", "z", 1, 1⟩]).find?
        (fun blk => blk.name == "A") = some b0 ∧
      b0.name = "A" ∧
      (∀ blk ∈ getNames [⟨"A", "x", 1, 1⟩, ⟨"B", "y", 1, 1⟩, ⟨"A", "z", 1, 1⟩],
        blk.name = "A" → b0.startRow ≤ blk.startRow) ∧
      b0.startRow < (⟨"A", 4, 4⟩ : Block).startRow ∧
      submitOrder (some [⟨"A", "x", 1, 1⟩, ⟨"B", "y", 1, 1⟩, ⟨"A", "z", 1, 1⟩])
          ⟨"S", "A", [⟨"w", 1, 1⟩]⟩ =
        (some (insertRowsForExistingName [⟨"A", "x", 1, 1⟩, ⟨"B", "y", 1, 1⟩, ⟨"A", "z", 1, 1⟩]
          b0.endRow [⟨"w", 1, 1⟩]),
         ⟨true, successMessage 1⟩) :=
  submitOrder_first_match [⟨"A", "x", 1, 1⟩, ⟨"B", "y", 1, 1⟩, ⟨"A", "z", 1, 1⟩] "S" "A"
    [⟨"w", 1, 1⟩] (by decide) 0 2 ⟨"A", 2, 2⟩ ⟨"A", 4, 4⟩ (by decide)
    (by decide) (by decide) (by decide) (by decide)

/-! ## `CreateInvoice.getCustomerItems` (from `src/.github/copilot-instructions.md`)

    const data = sheet.getRange(2, 1, lastRow - 1, 4).getValues();
    const items = [];
    let isCustomerSection = false;
    for (let i = 0; i < data.length; i++) {
      const [name, item, quantity, price] = data[i];
      if (name && name.toString().trim() !== "") {
        isCustomerSection = name.toString().trim() === customerName;
      }
      if (isCustomerSection && item && item.toString().trim() !== "") {
        items.push({ item: item.trim(), quantity: Number(quantity) || 0, price: ... });
      }
      if (isCustomerSection && name && ... && name.trim() !== customerName) break;
    }

Numeric cells are embedded as the `Int` they hold (`Number(q) || 0` is the
identity there). The `break` test runs after `isCustomerSection` has already
been refreshed by the same row's name cell. -/

def getCustomerItemsAux (customerName : String) : List Row → Bool → List OrderItem
  | [], _ => []
  | r :: rest, isCustomerSection =>
    let inSec : Bool :=
      if jsTrim r.name ≠ "" then jsTrim r.name == customerName else isCustomerSection
    let pushed : List OrderItem :=
      if inSec ∧ jsTrim r.item ≠ "" then [⟨jsTrim r.item, r.quantity, r.price⟩] else []
    if inSec ∧ jsTrim r.name ≠ "" ∧ jsTrim r.name ≠ customerName then pushed
    else pushed ++ getCustomerItemsAux customerName rest inSec

/-- `CreateInvoice.getCustomerItems`. -/
def getCustomerItems (rows : List Row) (customerName : String) : List OrderItem :=
  getCustomerItemsAux customerName rows false

theorem jsTrim_empty : jsTrim "" = "" := by decide

/-- One blank-named row: the item is pushed exactly when the section flag is
set; the flag is unchanged and the early exit cannot fire. -/
theorem getCI_blank_step (n item : String) (q p : Int) (rest : List Row) (b : Bool) :
    getCustomerItemsAux n (⟨"", item, q, p⟩ :: rest) b =
      (if b ∧ jsTrim item ≠ "" then [⟨jsTrim item, q, p⟩] else []) ++
        getCustomerItemsAux n rest b := by
  simp [getCustomerItemsAux, jsTrim_empty]

/-- One named row (trimmed, non-empty name): the section flag becomes
`name == customer`, the item is pushed exactly under that flag, and the early
exit cannot fire (a non-matching name has just set the flag to `false`). -/
theorem getCI_named_step (n nm item : String) (q p : Int) (rest : List Row) (b : Bool)
    (hnm : jsTrim nm = nm) (hne : nm ≠ "") :
    getCustomerItemsAux n (⟨nm, item, q, p⟩ :: rest) b =
      (if (nm == n) ∧ jsTrim item ≠ "" then [⟨jsTrim item, q, p⟩] else []) ++
        getCustomerItemsAux n rest (nm == n) := by
  simp only [getCustomerItemsAux, hnm]
  cases hn : (nm == n) with
  | true =>
    simp [hne, hn, show ¬ (nm ≠ n) from fun hc => hc (by simpa using hn)]
  | false =>
    simp [hne, hn]

/-- Scanning the blank-named continuation rows of a block. -/
theorem getCI_blank_rows (n nm : String) : ∀ (its : List OrderItem) (i : Nat)
    (rest : List Row) (b : Bool), i ≠ 0 →
    (∀ it ∈ its, jsTrim it.item = it.item ∧ it.item ≠ "") →
    getCustomerItemsAux n (appendRowsLoop nm i its ++ rest) b =
      (if b then its else []) ++ getCustomerItemsAux n rest b := by
  intro its
  induction its with
  | nil =>
    intro i rest b _ _
    simp [appendRowsLoop]
  | cons it its2 ih =>
    intro i rest b hi hall
    obtain ⟨hit1, hit2⟩ := hall it (List.mem_cons_self it its2)
    simp only [appendRowsLoop, if_neg hi, List.cons_append]
    rw [getCI_blank_step]
    rw [ih (i + 1) rest b (by omega) (fun x hx => hall x (List.mem_cons_of_mem it hx))]
    rw [hit1]
    cases b with
    | false => simp
    | true => simp [hit2]

/-- Scanning one whole block: its items are collected exactly when its
customer name matches, and the section flag afterwards records the match. -/
theorem getCI_block (n : String) (d : OrderData) (rest : List Row)
    (b : Bool)
    (hd1 : d.items ≠ []) (hd2 : jsTrim d.name = d.name) (hd3 : d.name ≠ "")
    (hits : ∀ it ∈ d.items, jsTrim it.item = it.item ∧ it.item ≠ "") :
    getCustomerItemsAux n (blockRows d ++ rest) b =
      (if d.name == n then d.items else []) ++
        getCustomerItemsAux n rest (d.name == n) := by
  match hitems : d.items, hd1 with
  | it0 :: its, _ =>
    obtain ⟨h01, h02⟩ := hits it0 (by rw [hitems]; exact List.mem_cons_self it0 its)
    have hhead : blockRows d = ⟨d.name, it0.item, it0.quantity, it0.price⟩ ::
        appendRowsLoop d.name 1 its := by
      simp [blockRows, hitems, appendRowsLoop]
    rw [hhead, List.cons_append, getCI_named_step n d.name it0.item _ _ _ b hd2 hd3]
    rw [getCI_blank_rows n d.name its 1 rest (d.name == n) (by omega)
      (fun x hx => hits x (by rw [hitems]; exact List.mem_cons_of_mem it0 hx))]
    rw [h01]
    cases hn : (d.name == n) with
    | true => simp [h02]
    | false => simp

/-- C9. `getCustomerItems` aggregates across duplicate blocks: on any sheet
built of blocks (duplicate customer names allowed), it returns the items of
every block whose name matches, concatenated in row order — the loop's
early-exit branch is unreachable because `isCustomerSection` has already been
set to `false` by any non-matching name before the branch's test runs. This
contrasts with `submitOrder`'s first-match-only lookup. -/
theorem getCustomerItems_aggregates (ds : List OrderData) (n : String)
    (h1 : ∀ d ∈ ds, d.items ≠ [] ∧ jsTrim d.name = d.name ∧ d.name ≠ "")
    (h2 : ∀ d ∈ ds, ∀ it ∈ d.items, jsTrim it.item = it.item ∧ it.item ≠ "") :
    getCustomerItems (rowsOf ds) n =
      ((ds.filter (fun d => d.name == n)).map (fun d => d.items)).join := by
  suffices h : ∀ (b : Bool), getCustomerItemsAux n (rowsOf ds) b =
      ((ds.filter (fun d => d.name == n)).map (fun d => d.items)).join from h false
  induction ds with
  | nil => intro b; rfl
  | cons d ds2 ih =>
    intro b
    obtain ⟨hd1, hd2, hd3⟩ := h1 d (List.mem_cons_self d ds2)
    rw [rowsOf_cons, getCI_block n d (rowsOf ds2) b hd1 hd2 hd3
      (h2 d (List.mem_cons_self d ds2))]
    rw [ih (fun e he => h1 e (List.mem_cons_of_mem d he))
      (fun e he => h2 e (List.mem_cons_of_mem d he)) (d.name == n)]
    cases hn : (d.name == n) with
    | true =>
      rw [List.filter_cons_of_pos (by rw [hn])]
      simp
    | false =>
      rw [List.filter_cons_of_neg (by rw [hn]; exact Bool.false_ne_true)]
      simp

/-- Witness for C9: the name "A" heads two disjoint blocks; both blocks'
items are returned, concatenated in row order. -/
theorem getCustomerItems_aggregates_witness :
    getCustomerItems (rowsOf
      [⟨"S", "A", [⟨"x", 1, 1⟩]⟩, ⟨"S", "B", [⟨"y", 2, 2⟩]⟩, ⟨"S", "A", [⟨"z", 3, 3⟩]⟩]) "A" =
      (([⟨"S", "A", [⟨"x", 1, 1⟩]⟩, ⟨"S", "B", [⟨"y", 2, 2⟩]⟩,
         ⟨"S", "A", [⟨"z", 3, 3⟩]⟩].filter
          (fun d : OrderData => d.name == "A")).map (fun d => d.items)).join :=
  getCustomerItems_aggregates
    [⟨"S", "A", [⟨"x", 1, 1⟩]⟩, ⟨"S", "B", [⟨"y", 2, 2⟩]⟩, ⟨"S", "A", [⟨"z", 3, 3⟩]⟩]
    "A" (by decide) (by decide)

/-! ## DOKU payment URL generation and the invoice-creation flow

`DokuPayment.generatePaymentUrl` (src/Code.js 176-293) performs one HTTP
call inside a `try`. The gateway interaction is a collaborator, embedded as a
`FetchOutcome`: `throws` covers both a transport exception and a
`JSON.parse` failure on the response text (each raises inside the `try` and
is converted by the `catch`), `parsed code body` is a response that parsed.
Validation failures `throw new Error(msg)`, which `error.toString()` renders
as `"Error: " ++ msg`. -/

structure LineItem where
  name : String
  quantity : Nat
  price : Nat
deriving DecidableEq

structure PayOrderData where
  invoiceNumber : String
  amount : Nat
  customerName : String
  customerPhone : String
  items : List LineItem
  paymentDueDate : Nat
deriving DecidableEq

structure DokuResponseBody where
  hasResponse : Bool
  paymentUrl : String
  tokenId : String
  sessionId : String
  expiredDate : String
  errorMessages : Option (List String)
  message : String
deriving DecidableEq

inductive FetchOutcome where
  | throws (msg : String)
  | parsed (code : Nat) (body : DokuResponseBody)
deriving DecidableEq

structure PaymentResult where
  success : Bool
  paymentUrl : String := ""
  tokenId : String := ""
  sessionId : String := ""
  expiredDate : String := ""
  error : String := ""
  responseCode : Option Nat := none
deriving DecidableEq

/-- `responseBody.error_messages || responseBody.message || ["Unknown error"]`,
joined with `", "` when it is the array. -/
def extractError (rb : DokuResponseBody) : String :=
  match rb.errorMessages with
  | some l => String.intercalate ", " l
  | none => if rb.message ≠ "" then rb.message else "Unknown error"

/-- `DokuPayment.generatePaymentUrl`: validation, then interpretation of the
gateway outcome. Success iff HTTP 200 with a `response` object; every other
outcome — validation throw, non-200 status, missing `response`, transport or
parse exception — is converted to a tagged `{success: false, error}` result,
never re-thrown. -/
def generatePaymentUrl (od : PayOrderData) (outcome : FetchOutcome) : PaymentResult :=
  if od.invoiceNumber = "" ∨ od.amount = 0 then
    { success := false, error := "Error: Invoice number and amount are required" }
  else if od.customerName = "" ∨ od.customerPhone = "" then
    { success := false, error := "Error: Customer name and phone are required" }
  else
    match outcome with
    | .throws msg => { success := false, error := msg }
    | .parsed code rb =>
      if code = 200 ∧ rb.hasResponse then
        { success := true, paymentUrl := rb.paymentUrl, tokenId := rb.tokenId,
          sessionId := rb.sessionId, expiredDate := rb.expiredDate }
      else
        { success := false, error := extractError rb, responseCode := some code }

/-! ### The invoice-creation flow (`generateInvoice`, src/unnamed/part_000) -/

structure InvItem where
  nama : String
  qty : Nat
  harga : Nat
deriving DecidableEq

structure InvData where
  nama : String
  hp : String
  items : List InvItem
deriving DecidableEq

/-- A row appended to the ORDER sheet: Date, Invoice ID, Name, Phone, Item,
Qty, Unit Price, SubTotal. -/
structure OrderRow where
  date : String
  invoiceId : String
  nama : String
  hp : String
  item : String
  qty : Nat
  harga : Nat
  subtotal : Nat
deriving DecidableEq

structure WebhookPayload where
  file_url : String
  customer_name : String
  phone_number : String
  total_amount : String
  invoice_id : String
  mime_type : String
  file_name : String
  items : String
  payment_url : String
deriving DecidableEq

/-- The grouping regex of `formatCurrency`: insert `.` before every position
from which the remaining digit count is a positive multiple of 3. -/
def groupThousands (l : List Char) : List Char :=
  (l.enum.map (fun p =>
    if p.1 ≠ 0 ∧ (l.length - p.1) % 3 = 0 then ['.', p.2] else [p.2])).join

/-- `formatCurrency`: `"Rp "` plus the amount with `.` thousand separators. -/
def formatCurrency (n : Nat) : String :=
  "Rp " ++ String.mk (groupThousands (Nat.repr n).data)

/-- `data.nama.replace(/[^a-zA-Z0-9]/g, "_")`. -/
def sanitizeFileName (s : String) : String :=
  String.mk (s.data.map (fun c => if c.isAlphanum then c else '_'))

/-- The `- {name} x {qty}, {subtotal}` lines of the webhook payload. -/
def formatItemsList (items : List InvItem) : String :=
  String.intercalate "\n" (items.map (fun it =>
    "- " ++ it.nama ++ " x " ++ Nat.repr it.qty ++ ", " ++ formatCurrency (it.qty * it.harga)))

/-- The JSON payload `sendWebhookNotification` posts. -/
def buildWebhookPayload (imageFileUrl customerName phoneNumber : String) (totalAmount : Nat)
    (invoiceId mimeType fileName : String) (items : List InvItem) (paymentUrl : String) :
    WebhookPayload :=
  { file_url := imageFileUrl,
    customer_name := customerName,
    phone_number := normalizePhoneNumber phoneNumber,
    total_amount := formatCurrency totalAmount,
    invoice_id := invoiceId,
    mime_type := mimeType,
    file_name := fileName,
    items := formatItemsList items,
    payment_url := if paymentUrl = "" then "" else paymentUrl }

/-- The observable outcome of one `generateInvoice` call: the updated counter
store, the appended ORDER rows, the returned file URL and the webhook
payload that is posted. -/
structure InvoiceOutcome where
  store : Store
  orderRows : List OrderRow
  fileUrl : String
  payload : WebhookPayload
deriving DecidableEq

/-- `generateInvoice`: mint an id, append the order rows, export the
rendered sheet (PNG, falling back to PDF; both failing throws, re-wrapped by
the outer catch as `Gagal membuat invoice: ...`), then best-effort payment
link (`paymentUrl` stays `""` on a failed `PaymentResult`) and the webhook
payload. Document rendering, Drive storage and the HTTP layer are
collaborators, passed in as the export outcomes (`pngCode/pngFileUrl/...`)
and the gateway outcome. -/
def generateInvoice (props : Store) (today currentDate : String) (data : InvData)
    (orderRows : List OrderRow)
    (pngCode : Nat) (pngFileUrl pngMime : String)
    (pdfCode : Nat) (pdfFileUrl pdfMime : String)
    (dokuOutcome : FetchOutcome) : Except String InvoiceOutcome :=
  let r := createInvoiceId props today
  let invoiceId := r.2
  let newRows := orderRows ++ data.items.map (fun it =>
    ⟨currentDate, invoiceId, data.nama, data.hp, it.nama, it.qty, it.harga, it.qty * it.harga⟩)
  let total := (data.items.map (fun it => it.qty * it.harga)).sum
  let exported : Except String (String × String × String) :=
    if pngCode = 200 then
      .ok (pngFileUrl, pngMime, invoiceId ++ "_" ++ sanitizeFileName data.nama ++ ".png")
    else if pdfCode ≠ 200 then
      .error ("Export failed. PNG: " ++ Nat.repr pngCode ++ ", PDF: " ++ Nat.repr pdfCode)
    else
      .ok (pdfFileUrl, pdfMime, invoiceId ++ "_" ++ sanitizeFileName data.nama ++ ".pdf")
  match exported with
  | .error msg => .error ("Gagal membuat invoice: " ++ msg)
  | .ok (fileUrl, mime, fileName) =>
    let dokuResult := generatePaymentUrl
      ⟨invoiceId, total, data.nama, normalizePhoneNumber data.hp,
        data.items.map (fun it => ⟨it.nama, it.qty, it.harga⟩), 60⟩ dokuOutcome
    let paymentUrl := if dokuResult.success then dokuResult.paymentUrl else ""
    let payload := buildWebhookPayload fileUrl data.nama data.hp total invoiceId mime fileName
      data.items paymentUrl
    .ok ⟨r.1, newRows, fileUrl, payload⟩

theorem generatePaymentUrl_throws (od : PayOrderData) (msg : String) :
    (generatePaymentUrl od (.throws msg)).success = false := by
  unfold generatePaymentUrl
  split_ifs <;> rfl

theorem generatePaymentUrl_non200 (od : PayOrderData) (code : Nat) (rb : DokuResponseBody)
    (h : code ≠ 200) :
    (generatePaymentUrl od (.parsed code rb)).success = false := by
  unfold generatePaymentUrl
  split_ifs with h1 h2
  · rfl
  · rfl
  · have hno : ¬ (code = 200 ∧ rb.hasResponse = true) := fun hc => h hc.1
    change (if code = 200 ∧ rb.hasResponse = true then
        ({ success := true, paymentUrl := rb.paymentUrl, tokenId := rb.tokenId,
           sessionId := rb.sessionId, expiredDate := rb.expiredDate } : PaymentResult)
      else
        { success := false, error := extractError rb, responseCode := some code }).success = false
    rw [if_neg hno]

/-- C5. Payment-link generation never raises and failure degrades
gracefully: every gateway outcome — transport exception or parse failure
(`throws`), or any non-200 response — yields a tagged `{success: false}`
result from `generatePaymentUrl`; and in the invoice-creation flow, with the
PNG export succeeding but the gateway answering HTTP 500, `generateInvoice`
still returns the file URL and the webhook payload carries
`payment_url = ""`. -/
theorem payment_failure_graceful (od : PayOrderData) (msg : String) (code : Nat)
    (rb : DokuResponseBody) (hcode : code ≠ 200)
    (props : Store) (today currentDate : String) (data : InvData)
    (orderRows : List OrderRow) (pngFileUrl pngMime : String)
    (pdfCode : Nat) (pdfFileUrl pdfMime : String) (rb2 : DokuResponseBody) :
    (generatePaymentUrl od (.throws msg)).success = false ∧
    (generatePaymentUrl od (.parsed code rb)).success = false ∧
    ∃ out : InvoiceOutcome,
      generateInvoice props today currentDate data orderRows 200 pngFileUrl pngMime
        pdfCode pdfFileUrl pdfMime (.parsed 500 rb2) = .ok out ∧
      out.fileUrl = pngFileUrl ∧
      out.payload.payment_url = "" := by
  refine ⟨generatePaymentUrl_throws od msg, generatePaymentUrl_non200 od code rb hcode, ?_⟩
  have hdoku := generatePaymentUrl_non200
    ⟨(createInvoiceId props today).2,
      ((data.items.map (fun it => it.qty * it.harga)).sum),
      data.nama, normalizePhoneNumber data.hp,
      data.items.map (fun it => ⟨it.nama, it.qty, it.harga⟩), 60⟩
    500 rb2 (by omega)
  simp only [generateInvoice, if_pos rfl]
  refine ⟨_, rfl, rfl, ?_⟩
  simp only [buildWebhookPayload, hdoku]
  simp

/-- Witness for C5 at concrete inputs (gateway HTTP 500, PNG export OK). -/
theorem payment_failure_graceful_witness :
    (generatePaymentUrl ⟨"INV-1", 100, "A", "628", [], 60⟩ (.throws "err")).success = false ∧
    (generatePaymentUrl ⟨"INV-1", 100, "A", "628", [], 60⟩
      (.parsed 500 ⟨false, "", "", "", "", none, ""⟩)).success = false ∧
    ∃ out : InvoiceOutcome,
      generateInvoice [] "20250916" "2025-09-16" ⟨"A", "08", [⟨"x", 1, 1000⟩]⟩ []
        200 "https://png" "image/png" 500 "https://pdf" "application/pdf"
        (.parsed 500 ⟨false, "", "", "", "", none, ""⟩) = .ok out ∧
      out.fileUrl = "https://png" ∧
      out.payload.payment_url = "" :=
  payment_failure_graceful ⟨"INV-1", 100, "A", "628", [], 60⟩ "err" 500
    ⟨false, "", "", "", "", none, ""⟩ (by omega) [] "20250916" "2025-09-16"
    ⟨"A", "08", [⟨"x", 1, 1000⟩]⟩ [] "https://png" "image/png" 500 "https://pdf"
    "application/pdf" ⟨false, "", "", "", "", none, ""⟩

end OrderMgmt
